import Mathlib

/-!
Verification of the pipeline-aggregation builders in
`src/elasticsearch/aggregates/builders/piplines.rs`.

The two Rust functions `avg_pipeline_agg` and `bucket_script_pipeline_agg`
build JSON documents (returned as `JsonB`).  We embed them shallowly:

* JSON values become the inductive `Json` below; a JSON object is an
  association list of fields.
* The Rust `HashMap<&str, &str>` used for `bucket_path` becomes an
  association list together with `hashMapInsert`, which replaces the value
  of an existing key (the semantics of `HashMap::insert`).
* serde `Serialize` on the unit-variant enum `GapPolicy` (no rename
  attribute) produces the variant name itself; `GapPolicy.serialize`
  records that.
* `skip_serializing_if = "Option::is_none"` on the optional fields means
  the key is omitted entirely when the option is `None`; `optFields`
  records that.
* The length-mismatch abort in `bucket_script_pipeline_agg` becomes an
  `Except.error` carrying the source message.
-/

inductive Json where
  | str : String → Json
  | int : Int → Json
  | obj : List (String × Json) → Json
deriving Repr

/-- The Rust enum `GapPolicy` with its two variants `Skip` and
`InsertZeros`. -/
inductive GapPolicy where
  | Skip : GapPolicy
  | InsertZeros : GapPolicy
deriving DecidableEq, Repr

/-- serde serialization of a unit variant with no rename attribute: the
variant name itself. -/
def GapPolicy.serialize : GapPolicy → String
  | GapPolicy.Skip => "Skip"
  | GapPolicy.InsertZeros => "InsertZeros"

/-- `HashMap::insert` on the association-list model: if the key is present
its value is replaced, otherwise the pair is appended. -/
def hashMapInsert (m : List (String × String)) (k v : String) :
    List (String × String) :=
  if m.any (fun p => p.1 == k) then
    m.map (fun p => if p.1 == k then (k, v) else p)
  else m ++ [(k, v)]

/-- The loop in `bucket_script_pipeline_agg` that zips the two input
sequences and inserts each pair into the `HashMap`. -/
def buildBucketPath (vars params : List String) : List (String × String) :=
  (vars.zip params).foldl (fun m p => hashMapInsert m p.1 p.2) []

/-- The optional fields `gap_policy` and `format`, both carrying
`skip_serializing_if = "Option::is_none"`: each key appears exactly when
its option is `some`. -/
def optFields (gap_policy : Option GapPolicy) (format : Option Int) :
    List (String × Json) :=
  (match gap_policy with
   | some g => [("gap_policy", Json.str g.serialize)]
   | none => []) ++
  (match format with
   | some f => [("format", Json.int f)]
   | none => [])

/-- The Rust function `avg_pipeline_agg`: serializes the `AvgBucket`
struct under the single top-level key `avg_bucket`. -/
def avg_pipeline_agg (bucket_path : String) (gap_policy : Option GapPolicy)
    (format : Option Int) : Json :=
  Json.obj [("avg_bucket", Json.obj
    ([("bucket_path", Json.str bucket_path)] ++ optFields gap_policy format))]

/-- The Rust function `bucket_script_pipeline_agg`: aborts with an error
when the two sequences have different lengths, otherwise serializes the
`BucketScript` struct under the single top-level key `bucket_script`. -/
def bucket_script_pipeline_agg (script : String)
    (bucket_path_var bucket_path_param : List String)
    (gap_policy : Option GapPolicy) (format : Option Int) :
    Except String Json :=
  if bucket_path_var.length ≠ bucket_path_param.length then
    Except.error "Not the same amount of bucket path parts given."
  else
    Except.ok (Json.obj [("bucket_script", Json.obj
      ([("script", Json.str script),
        ("bucket_path", Json.obj
          ((buildBucketPath bucket_path_var bucket_path_param).map
            (fun p => (p.1, Json.str p.2))))] ++
       optFields gap_policy format))])

/-- The field list of the inner object of a single-key document. -/
def Json.innerFields : Json → List (String × Json)
  | Json.obj [(_, Json.obj fs)] => fs
  | _ => []

/-- The keys of the inner object of a single-key document. -/
def Json.innerKeys (j : Json) : List String := j.innerFields.map Prod.fst

/-- Look up a field of the inner object of a single-key document. -/
def Json.fieldVal (j : Json) (k : String) : Option Json :=
  j.innerFields.lookup k

/-- Recover the `bucket_path` mapping (name to path, both strings) from a
bucket-script document. -/
def bucketPathOf (j : Json) : Option (List (String × String)) :=
  match j.fieldVal "bucket_path" with
  | some (Json.obj fs) =>
      some (fs.filterMap (fun p =>
        match p.2 with
        | Json.str s => some (p.1, s)
        | _ => none))
  | _ => none

/-- Recovering the string-to-string pairs from their `Json` image is the
identity. -/
lemma bucketPath_roundtrip (m : List (String × String)) :
    (m.map (fun p => (p.1, Json.str p.2))).filterMap (fun p =>
      match p.2 with
      | Json.str s => some (p.1, s)
      | _ => none) = m := by
  induction m with
  | nil => rfl
  | cons p rest ih => simp [ih]

/-- Inserting a key that is absent appends the pair. -/
lemma hashMapInsert_of_not_mem (m : List (String × String)) (k v : String)
    (h : ∀ p ∈ m, p.1 ≠ k) : hashMapInsert m k v = m ++ [(k, v)] := by
  have hany : m.any (fun p => p.1 == k) = false := by
    rw [List.any_eq_false]
    intro p hp
    simp [h p hp]
  simp [hashMapInsert, hany]

/-- Inserting past a head entry with a different key leaves the head
unchanged. -/
lemma hashMapInsert_cons_ne (p : String × String) (rest : List (String × String))
    (k v : String) (h : p.1 ≠ k) :
    hashMapInsert (p :: rest) k v = p :: hashMapInsert rest k v := by
  have hbeq : (p.1 == k) = false := by simp [h]
  by_cases hrest : rest.any (fun q => q.1 == k)
  · simp [hashMapInsert, List.any_cons, hbeq, hrest, h]
  · simp only [Bool.not_eq_true] at hrest
    simp [hashMapInsert, List.any_cons, hbeq, hrest, h]

/-- After inserting a pair, looking up its key yields its value: the
insert overwrites any earlier binding of the key. -/
lemma lookup_hashMapInsert (m : List (String × String)) (k v : String) :
    (hashMapInsert m k v).lookup k = some v := by
  induction m with
  | nil => simp [hashMapInsert, List.lookup]
  | cons p rest ih =>
    by_cases hpk : p.1 = k
    · have hany : ((p :: rest).any (fun q => q.1 == k)) = true := by
        simp [List.any_cons, hpk]
      have hbeq : (p.1 == k) = true := by simp [hpk]
      simp only [hashMapInsert, hany, if_true, List.map_cons, hbeq]
      simp [List.lookup]
    · rw [hashMapInsert_cons_ne p rest k v hpk]
      have hkp : (k == p.1) = false := by
        simp only [beq_eq_false_iff_ne]
        exact fun h => hpk h.symm
      simp only [List.lookup, hkp]
      exact ih

/-- Folding inserts of pairwise-distinct keys that also avoid the keys of
the accumulator just appends the zipped list. -/
lemma foldl_insert_of_disjoint (vars : List String) :
    ∀ (params : List String) (m : List (String × String)),
      vars.length = params.length → vars.Nodup →
      (∀ p ∈ m, p.1 ∉ vars) →
      (vars.zip params).foldl (fun m p => hashMapInsert m p.1 p.2) m =
        m ++ vars.zip params := by
  induction vars with
  | nil => intro params m _ _ _; simp
  | cons v vs ih =>
    intro params m hlen hnd hm
    cases params with
    | nil => simp at hlen
    | cons q qs =>
      simp only [List.zip_cons_cons, List.foldl_cons]
      have hins : hashMapInsert m v q = m ++ [(v, q)] := by
        apply hashMapInsert_of_not_mem
        intro p hp
        have := hm p hp
        simp only [List.mem_cons] at this
        tauto
      rw [hins]
      have hlen2 : vs.length = qs.length := by simpa using hlen
      have hnd2 : vs.Nodup := hnd.of_cons
      have hm2 : ∀ p ∈ m ++ [(v, q)], p.1 ∉ vs := by
        intro p hp
        rcases List.mem_append.mp hp with hp | hp
        · have := hm p hp
          simp only [List.mem_cons] at this
          tauto
        · simp only [List.mem_singleton] at hp
          subst hp
          exact (List.nodup_cons.mp hnd).1
      rw [ih qs (m ++ [(v, q)]) hlen2 hnd2 hm2]
      simp

/-- With equal lengths and pairwise-distinct variable names, the map built
by the loop is exactly the zip of the two sequences. -/
lemma buildBucketPath_nodup (vars params : List String)
    (h : vars.length = params.length) (hd : vars.Nodup) :
    buildBucketPath vars params = vars.zip params := by
  have := foldl_insert_of_disjoint vars params [] h hd (by simp)
  simpa [buildBucketPath] using this

/-- In the zip of two sequences whose first has pairwise-distinct entries,
looking up the entry at index i yields the second sequence at index i. -/
lemma lookup_zip (vars : List String) :
    ∀ (params : List String), vars.Nodup →
      ∀ i v q, vars.get? i = some v → params.get? i = some q →
        (vars.zip params).lookup v = some q := by
  induction vars with
  | nil => intro params _ i v q hv _; simp at hv
  | cons a vs ih =>
    intro params hnd i v q hv hq
    cases params with
    | nil => simp at hq
    | cons b qs =>
      cases i with
      | zero =>
        simp only [List.get?_cons_zero, Option.some_inj] at hv hq
        subst hv; subst hq
        simp [List.lookup]
      | succ n =>
        simp only [List.get?_cons_succ] at hv hq
        have hvmem : v ∈ vs := List.get?_mem hv
        have hav : (v == a) = false := by
          simp only [beq_eq_false_iff_ne]
          intro h; subst h
          exact (List.nodup_cons.mp hnd).1 hvmem
        simp only [List.zip_cons_cons, List.lookup, hav]
        exact ih qs (List.nodup_cons.mp hnd).2 n v q hv hq

/-- Extending both sequences by one element inserts that pair last. -/
lemma buildBucketPath_append (vs ps : List String) (k v : String)
    (h : vs.length = ps.length) :
    buildBucketPath (vs ++ [k]) (ps ++ [v]) =
      hashMapInsert (buildBucketPath vs ps) k v := by
  simp [buildBucketPath, List.zip_append h]

/-- C1: for every script, every pair of input sequences of unequal
lengths, and every optional gap policy and format, the bucket-script
builder fails with the arity-mismatch error and returns no document. -/
theorem claim_C1 (script : String) (vars params : List String)
    (gp : Option GapPolicy) (fmt : Option Int)
    (h : vars.length ≠ params.length) :
    bucket_script_pipeline_agg script vars params gp fmt =
      Except.error "Not the same amount of bucket path parts given." := by
  simp [bucket_script_pipeline_agg, h]

/-- C1 witness: a concrete arity mismatch (lengths 2 and 1). -/
theorem claim_C1_witness :
    bucket_script_pipeline_agg "x" ["a", "b"] ["p1"] none none =
      Except.error "Not the same amount of bucket path parts given." :=
  claim_C1 "x" ["a", "b"] ["p1"] none none (by decide)

/-- C2: the average-bucket builder always returns a document with the
single top-level key avg_bucket, whose field map has bucket_path always,
gap_policy iff supplied, format iff supplied, and no other keys. -/
theorem claim_C2 (bp : String) (gp : Option GapPolicy) (fmt : Option Int) :
    ∃ fs, avg_pipeline_agg bp gp fmt = Json.obj [("avg_bucket", Json.obj fs)] ∧
      "bucket_path" ∈ fs.map Prod.fst ∧
      (("gap_policy" ∈ fs.map Prod.fst) ↔ gp.isSome) ∧
      (("format" ∈ fs.map Prod.fst) ↔ fmt.isSome) ∧
      (∀ k ∈ fs.map Prod.fst, k = "bucket_path" ∨ k = "gap_policy" ∨ k = "format") ∧
      fs.lookup "bucket_path" = some (Json.str bp) := by
  cases gp <;> cases fmt <;>
    exact ⟨_, rfl, by simp [optFields], by simp [optFields], by simp [optFields],
      by simp [optFields], by simp [optFields, List.lookup]⟩

/-- C3: for every equal-length pair of sequences (including both empty,
and including duplicate variable names) the bucket-script builder
succeeds and its bucket_path field is a mapping; when additionally all
variable names are pairwise distinct, that mapping is exactly the
index-wise zip of the two sequences, so it has length len(vars) and maps
each vars[i] to params[i]. -/
theorem claim_C3 (s : String) (vars params : List String)
    (gp : Option GapPolicy) (fmt : Option Int)
    (h : vars.length = params.length) :
    ∃ doc, bucket_script_pipeline_agg s vars params gp fmt = Except.ok doc ∧
      (∃ m, bucketPathOf doc = some m) ∧
      (vars.Nodup →
        bucketPathOf doc = some (vars.zip params) ∧
        (vars.zip params).length = vars.length ∧
        (∀ i v q, vars.get? i = some v → params.get? i = some q →
          (vars.zip params).lookup v = some q)) := by
  have hfv : (Json.obj [("bucket_script", Json.obj
      ([("script", Json.str s),
        ("bucket_path", Json.obj ((buildBucketPath vars params).map
          (fun p => (p.1, Json.str p.2))))] ++ optFields gp fmt))]).fieldVal
        "bucket_path" =
      some (Json.obj ((buildBucketPath vars params).map
        (fun p => (p.1, Json.str p.2)))) := by
    cases gp <;> cases fmt <;>
      simp [Json.fieldVal, Json.innerFields, optFields, List.lookup]
  refine ⟨Json.obj [("bucket_script", Json.obj
      ([("script", Json.str s),
        ("bucket_path", Json.obj ((buildBucketPath vars params).map
          (fun p => (p.1, Json.str p.2))))] ++ optFields gp fmt))], ?_, ?_, ?_⟩
  · simp [bucket_script_pipeline_agg, h]
  · exact ⟨((buildBucketPath vars params).map
      (fun p => (p.1, Json.str p.2))).filterMap (fun p =>
        match p.2 with
        | Json.str t => some (p.1, t)
        | _ => none),
      by simp only [bucketPathOf, hfv]⟩
  · intro hd
    refine ⟨?_, ?_, ?_⟩
    · simp only [bucketPathOf, hfv]
      rw [buildBucketPath_nodup vars params h hd, bucketPath_roundtrip]
    · simp [h]
    · exact fun i v q hv hq => lookup_zip vars params hd i v q hv hq

/-- C3 witness: the concrete scenario with vars a, b and paths path.a,
path.b. -/
theorem claim_C3_witness :
    ∃ doc, bucket_script_pipeline_agg "params.a + params.b" ["a", "b"]
        ["path.a", "path.b"] none none = Except.ok doc ∧
      bucketPathOf doc = some [("a", "path.a"), ("b", "path.b")] := by
  obtain ⟨doc, h1, _, h3⟩ := claim_C3 "params.a + params.b" ["a", "b"]
    ["path.a", "path.b"] none none (by decide)
  exact ⟨doc, h1, (h3 (by decide)).1⟩

/-- C4 counterexample: at the concrete input of the claim, the gap_policy
field of the returned document holds the token Skip (the serde variant
name), not the lowercase token skip the claim requires. -/
theorem claim_C4_counterexample :
    (avg_pipeline_agg "b" (some GapPolicy.Skip) (some 2)).fieldVal "gap_policy" =
      some (Json.str "Skip") ∧ ("Skip" : String) ≠ "skip" :=
  ⟨rfl, by decide⟩

/-- C4 amended: avg_bucket with bucket_path b, gap policy Skip and format 2
returns the document whose avg_bucket fields are bucket_path = b,
gap_policy = Skip and format = 2; GapPolicy.Skip serializes to the literal
token Skip and GapPolicy.InsertZeros to the literal token InsertZeros (the
variant names). -/
theorem claim_C4_amended :
    avg_pipeline_agg "b" (some GapPolicy.Skip) (some 2) =
      Json.obj [("avg_bucket", Json.obj
        [("bucket_path", Json.str "b"), ("gap_policy", Json.str "Skip"),
         ("format", Json.int 2)])] ∧
    GapPolicy.serialize GapPolicy.Skip = "Skip" ∧
    GapPolicy.serialize GapPolicy.InsertZeros = "InsertZeros" :=
  ⟨rfl, rfl, rfl⟩

/-- C5: GapPolicy is a closed type with exactly the two distinct variants
Skip and InsertZeros, and each serializes as its variant name. -/
theorem claim_C5 :
    (∀ g : GapPolicy, g = GapPolicy.Skip ∨ g = GapPolicy.InsertZeros) ∧
    GapPolicy.Skip ≠ GapPolicy.InsertZeros ∧
    GapPolicy.serialize GapPolicy.Skip = "Skip" ∧
    GapPolicy.serialize GapPolicy.InsertZeros = "InsertZeros" := by
  refine ⟨fun g => ?_, by decide, rfl, rfl⟩
  cases g
  · exact Or.inl rfl
  · exact Or.inr rfl

/-- C6: an optional input that was not supplied is entirely absent from
the output field map of either builder, and with both optionals absent the
key set equals exactly the required fields. -/
theorem claim_C6 (bp s : String) (vars params : List String)
    (gp : Option GapPolicy) (fmt : Option Int)
    (h : vars.length = params.length) :
    (gp = none → "gap_policy" ∉ (avg_pipeline_agg bp gp fmt).innerKeys) ∧
    (fmt = none → "format" ∉ (avg_pipeline_agg bp gp fmt).innerKeys) ∧
    (avg_pipeline_agg bp none none).innerKeys = ["bucket_path"] ∧
    (∃ doc, bucket_script_pipeline_agg s vars params none none = Except.ok doc ∧
      ∀ k, k ∈ doc.innerKeys ↔ (k = "script" ∨ k = "bucket_path")) ∧
    (∀ doc, bucket_script_pipeline_agg s vars params gp fmt = Except.ok doc →
      (gp = none → "gap_policy" ∉ doc.innerKeys) ∧
      (fmt = none → "format" ∉ doc.innerKeys)) := by
  refine ⟨?_, ?_, ?_, ?_, ?_⟩
  · rintro rfl
    cases fmt <;>
      simp [avg_pipeline_agg, Json.innerKeys, Json.innerFields, optFields]
  · rintro rfl
    cases gp <;>
      simp [avg_pipeline_agg, Json.innerKeys, Json.innerFields, optFields]
  · simp [avg_pipeline_agg, Json.innerKeys, Json.innerFields, optFields]
  · refine ⟨Json.obj [("bucket_script", Json.obj
        ([("script", Json.str s),
          ("bucket_path", Json.obj ((buildBucketPath vars params).map
            (fun p => (p.1, Json.str p.2))))] ++ optFields none none))], ?_, ?_⟩
    · simp [bucket_script_pipeline_agg, h]
    · intro k
      simp [Json.innerKeys, Json.innerFields, optFields]
  · intro doc hdoc
    have hok : bucket_script_pipeline_agg s vars params gp fmt =
        Except.ok (Json.obj [("bucket_script", Json.obj
          ([("script", Json.str s),
            ("bucket_path", Json.obj ((buildBucketPath vars params).map
              (fun p => (p.1, Json.str p.2))))] ++ optFields gp fmt))]) := by
      simp [bucket_script_pipeline_agg, h]
    rw [hok] at hdoc
    have hdoc2 : doc = Json.obj [("bucket_script", Json.obj
        ([("script", Json.str s),
          ("bucket_path", Json.obj ((buildBucketPath vars params).map
            (fun p => (p.1, Json.str p.2))))] ++ optFields gp fmt))] := by
      cases hdoc
      rfl
    subst hdoc2
    constructor
    · rintro rfl
      cases fmt <;>
        simp [Json.innerKeys, Json.innerFields, optFields]
    · rintro rfl
      cases gp <;>
        simp [Json.innerKeys, Json.innerFields, optFields]

/-- C6 witness: concrete instances of the key-set equalities. -/
theorem claim_C6_witness :
    (avg_pipeline_agg "b" none none).innerKeys = ["bucket_path"] ∧
    (∃ doc, bucket_script_pipeline_agg "x" ["a"] ["p"] none none =
        Except.ok doc ∧
      ∀ k, k ∈ doc.innerKeys ↔ (k = "script" ∨ k = "bucket_path")) :=
  ⟨(claim_C6 "b" "x" ["a"] ["p"] none none rfl).2.2.1,
   (claim_C6 "b" "x" ["a"] ["p"] none none rfl).2.2.2.1⟩

/-- C7: inserting the pair for a later index overwrites the binding of an
earlier pair with the same variable name (last-write-wins), and on the
concrete duplicate input the bucket_path mapping is exactly a maps to
p2. -/
theorem claim_C7 :
    (∀ (vs ps : List String) (k v : String), vs.length = ps.length →
      (buildBucketPath (vs ++ [k]) (ps ++ [v])).lookup k = some v) ∧
    (∃ doc, bucket_script_pipeline_agg "x" ["a", "a"] ["p1", "p2"] none none =
        Except.ok doc ∧ bucketPathOf doc = some [("a", "p2")]) := by
  constructor
  · intro vs ps k v h
    rw [buildBucketPath_append vs ps k v h]
    exact lookup_hashMapInsert _ k v
  · exact ⟨_, rfl, rfl⟩

/-- C7 witness: the overwrite rule applied at the concrete duplicate
input. -/
theorem claim_C7_witness :
    (buildBucketPath (["a"] ++ ["a"]) (["p1"] ++ ["p2"])).lookup "a" =
      some "p2" :=
  claim_C7.1 ["a"] ["p1"] "a" "p2" rfl

/-- C8: both builders are deterministic: identical inputs give
structurally identical output documents. -/
theorem claim_C8 (bp s : String) (vars params : List String)
    (gp : Option GapPolicy) (fmt : Option Int) :
    avg_pipeline_agg bp gp fmt = avg_pipeline_agg bp gp fmt ∧
    bucket_script_pipeline_agg s vars params gp fmt =
      bucket_script_pipeline_agg s vars params gp fmt :=
  ⟨rfl, rfl⟩

/-- C9: the average-bucket builder cannot fail: for every input it returns
a single-key avg_bucket document. -/
theorem claim_C9 (bp : String) (gp : Option GapPolicy) (fmt : Option Int) :
    ∃ fields, avg_pipeline_agg bp gp fmt =
      Json.obj [("avg_bucket", Json.obj fields)] :=
  ⟨_, rfl⟩

/-- C10: neither builder rejects an empty required string: the empty
bucket_path and the empty script are accepted and appear verbatim in the
output document. -/
theorem claim_C10 (gp : Option GapPolicy) (fmt : Option Int)
    (vars params : List String) (h : vars.length = params.length) :
    (avg_pipeline_agg "" gp fmt).fieldVal "bucket_path" = some (Json.str "") ∧
    (∃ doc, bucket_script_pipeline_agg "" vars params gp fmt = Except.ok doc ∧
      doc.fieldVal "script" = some (Json.str "")) := by
  constructor
  · simp [avg_pipeline_agg, Json.fieldVal, Json.innerFields, List.lookup]
  · refine ⟨Json.obj [("bucket_script", Json.obj
        ([("script", Json.str ""),
          ("bucket_path", Json.obj ((buildBucketPath vars params).map
            (fun p => (p.1, Json.str p.2))))] ++ optFields gp fmt))], ?_, ?_⟩
    · simp [bucket_script_pipeline_agg, h]
    · simp [Json.fieldVal, Json.innerFields, List.lookup]

/-- C10 witness: both builders at the empty string with no optionals. -/
theorem claim_C10_witness :
    (avg_pipeline_agg "" none none).fieldVal "bucket_path" =
      some (Json.str "") ∧
    (∃ doc, bucket_script_pipeline_agg "" [] [] none none = Except.ok doc ∧
      doc.fieldVal "script" = some (Json.str "")) :=
  claim_C10 none none [] [] rfl
